import Mathlib

/-!
Shallow embedding of
`src/web/app/pages-instructor/instructor-search-page/instructor-search-page.component.ts`
(the instructor search page component) and proofs about its behaviour.

Remote calls made through the `SearchService` collaborator are not part of the
given source; following the specification they are modelled as an environment
of fallible functions (`Except`-valued), with a lookup issuing its request at
creation time (promise-like), so that two rows referencing the same stored
lookup share a single request.  RxJS `forkJoin` is modelled as waiting for all
results, failing whenever any member fails (the error surfaced is the first in
list order; the runtime surfaces the first in time, which coincides whenever a
single call fails).
-/

/-- External `Student` entity: identified course and section plus opaque
profile fields (collapsed into one opaque `profile` component). -/
structure Student where
  courseId : String
  sectionName : String
  profile : String
deriving DecidableEq, Repr

/-- View model `StudentListRowModel`: a student with two permission flags. -/
structure StudentListRowModel where
  student : Student
  isAllowedToViewStudentInSection : Bool
  isAllowedToModifyStudent : Bool
deriving DecidableEq, Repr

/-- One course group of student rows (`SearchStudentsListRowTable`). -/
structure SearchStudentsListRowTable where
  courseId : String
  students : List StudentListRowModel
deriving DecidableEq, Repr

/-- External `InstructorPrivilege` entity: the two permission booleans used. -/
structure InstructorPrivilege where
  canViewStudentInSections : Bool
  canModifyStudent : Bool
deriving DecidableEq, Repr

/-- External `CommentSearchResult`: the two fields the page projects out,
kept opaque. -/
structure CommentSearchResult where
  feedbackSession : String
  questions : List String
deriving DecidableEq, Repr

/-- Comment result table entry (`SearchCommentsTable`). -/
structure SearchCommentsTable where
  feedbackSession : String
  questions : List String
deriving DecidableEq, Repr

/-- `InstructorSearchResult` returned by the search service. -/
structure InstructorSearchResult where
  students : List Student
  comments : List CommentSearchResult
deriving DecidableEq, Repr

/-- Search bar parameters (`SearchParams`). -/
structure SearchParams where
  searchKey : String
  isSearchForStudents : Bool
  isSearchForComments : Bool
deriving DecidableEq, Repr

/-- Error payload delivered to the error callback (`ErrorMessageOutput`
carries `error.message`; we keep just the message). -/
structure ErrorMessage where
  message : String
deriving DecidableEq, Repr

/-- Wrapper matching `ErrorMessageOutput`: `resp.error.message`. -/
structure ErrorMessageOutput where
  error : ErrorMessage
deriving DecidableEq, Repr

/-- Combined per-branch result (`TransformedInstructorSearchResult`).  The
TypeScript casts `of(\x7b\x7d)` to this interface, so each field may be absent
(`undefined`); absence is modelled with `Option`. -/
structure TransformedInstructorSearchResult where
  searchCommentTables : Option (List SearchCommentsTable)
  searchStudentTables : Option (List SearchStudentsListRowTable)
deriving DecidableEq, Repr

/-- Insertion loop of a JavaScript `Set`: walk the list, skipping elements
already seen, keeping first occurrences in order. -/
def jsSetDedupAux {α : Type} [DecidableEq α] (seen : List α) : List α → List α
  | [] => []
  | x :: xs =>
    if x ∈ seen then jsSetDedupAux seen xs else x :: jsSetDedupAux (x :: seen) xs

/-- First-seen-order deduplication, the semantics of JavaScript
`Array.from(new Set(xs))`: keeps the first occurrence of each element, in
the order first occurrences appear. -/
def jsSetDedup {α : Type} [DecidableEq α] (l : List α) : List α :=
  jsSetDedupAux [] l

theorem jsSetDedupAux_congr {α : Type} [DecidableEq α] :
    ∀ (xs seen₁ seen₂ : List α), (∀ a, a ∈ seen₁ ↔ a ∈ seen₂) →
      jsSetDedupAux seen₁ xs = jsSetDedupAux seen₂ xs := by
  intro xs
  induction xs with
  | nil => intro _ _ _; rfl
  | cons x xs ih =>
    intro seen₁ seen₂ hiff
    simp only [jsSetDedupAux]
    by_cases hx : x ∈ seen₁
    · rw [if_pos hx, if_pos ((hiff x).mp hx)]
      exact ih _ _ hiff
    · rw [if_neg hx, if_neg (fun h => hx ((hiff x).mpr h))]
      rw [ih (x :: seen₁) (x :: seen₂) (by intro a; simp [hiff a])]

theorem jsSetDedupAux_filter {α : Type} [DecidableEq α] :
    ∀ (xs seen : List α) (x : α),
      jsSetDedupAux (x :: seen) xs = jsSetDedupAux seen (xs.filter (fun y => y ≠ x)) := by
  intro xs
  induction xs with
  | nil => intro seen x; rfl
  | cons y xs ih =>
    intro seen x
    by_cases hyx : y = x
    · subst hyx
      rw [List.filter_cons_of_neg (by simp)]
      simp only [jsSetDedupAux]
      rw [if_pos (List.mem_cons_self _ _)]
      exact ih seen y
    · rw [List.filter_cons_of_pos (by simp [hyx])]
      simp only [jsSetDedupAux]
      by_cases hys : y ∈ seen
      · rw [if_pos (List.mem_cons_of_mem _ hys), if_pos hys]
        exact ih seen x
      · have hy1 : y ∉ x :: seen := by
          intro h
          rcases List.mem_cons.mp h with h | h
          · exact hyx h
          · exact hys h
        rw [if_neg hy1, if_neg hys]
        have hperm : jsSetDedupAux (y :: x :: seen) xs
            = jsSetDedupAux (x :: y :: seen) xs := by
          refine jsSetDedupAux_congr xs _ _ ?_
          intro a
          constructor <;> (intro h; simp at h ⊢; tauto)
        rw [hperm, ih (y :: seen) x]

theorem jsSetDedup_cons {α : Type} [DecidableEq α] (x : α) (xs : List α) :
    jsSetDedup (x :: xs) = x :: jsSetDedup (xs.filter (fun y => y ≠ x)) := by
  unfold jsSetDedup
  simp only [jsSetDedupAux]
  rw [if_neg (List.not_mem_nil x)]
  rw [jsSetDedupAux_filter xs [] x]

/-- Induction along the first-seen unfolding of `jsSetDedup`. -/
theorem jsSetDedup_induction {α : Type} [DecidableEq α] {motive : List α → Prop}
    (h0 : motive ([] : List α))
    (h1 : ∀ (x : α) (xs : List α), motive (xs.filter (fun y => y ≠ x)) → motive (x :: xs)) :
    ∀ l : List α, motive l
  | [] => h0
  | x :: xs => h1 x xs (jsSetDedup_induction h0 h1 (xs.filter (fun y => y ≠ x)))
termination_by l => l.length
decreasing_by
  simp only [List.length_cons]
  exact Nat.lt_succ_of_le (List.length_filter_le _ _)

theorem mem_jsSetDedup {α : Type} [DecidableEq α] (l : List α) (a : α) :
    a ∈ jsSetDedup l ↔ a ∈ l := by
  induction l using jsSetDedup_induction with
  | h0 => simp [jsSetDedup, jsSetDedupAux]
  | h1 x xs ih =>
    rw [jsSetDedup_cons]
    rw [List.mem_cons, ih, List.mem_filter]
    by_cases hax : a = x <;> simp [hax]

theorem jsSetDedup_sublist {α : Type} [DecidableEq α] (l : List α) :
    (jsSetDedup l).Sublist l := by
  induction l using jsSetDedup_induction with
  | h0 => simp [jsSetDedup, jsSetDedupAux]
  | h1 x xs ih =>
    rw [jsSetDedup_cons]
    exact (ih.trans (List.filter_sublist xs)).cons₂ x

theorem jsSetDedup_nodup {α : Type} [DecidableEq α] (l : List α) :
    (jsSetDedup l).Nodup := by
  induction l using jsSetDedup_induction with
  | h0 => simp [jsSetDedup, jsSetDedupAux]
  | h1 x xs ih =>
    rw [jsSetDedup_cons]
    refine List.Nodup.cons ?_ ih
    intro hmem
    have := (mem_jsSetDedup _ x).mp hmem
    simp at this

theorem indexOf_lt_of_filter {α : Type} [DecidableEq α] (p : α → Bool) :
    ∀ (xs : List α) (a b : α), a ∈ xs.filter p → b ∈ xs.filter p →
      (xs.filter p).indexOf a < (xs.filter p).indexOf b → xs.indexOf a < xs.indexOf b := by
  intro xs
  induction xs with
  | nil => intro a b ha _ _; simp at ha
  | cons x xs ih =>
    intro a b ha hb hlt
    by_cases hpx : p x = true
    · rw [List.filter_cons_of_pos hpx] at ha hb hlt
      by_cases hax : a = x
      · subst hax
        have hbx : b ≠ a := by
          intro hba; subst hba
          simp [List.indexOf_cons_self] at hlt
        rw [List.indexOf_cons_self]
        rw [List.indexOf_cons_ne _ (fun h => hbx h.symm)]
        exact Nat.succ_pos _
      · by_cases hbx : b = x
        · subst hbx
          rw [List.indexOf_cons_self, List.indexOf_cons_ne _ (fun h => hax h.symm)] at hlt
          exact absurd hlt (Nat.not_lt_zero _).elim
        · rw [List.indexOf_cons_ne _ (fun h => hax h.symm),
            List.indexOf_cons_ne _ (fun h => hbx h.symm)] at hlt
          have ha' : a ∈ xs.filter p := by
            rcases List.mem_cons.mp ha with h | h
            · exact absurd h hax
            · exact h
          have hb' : b ∈ xs.filter p := by
            rcases List.mem_cons.mp hb with h | h
            · exact absurd h hbx
            · exact h
          have := ih a b ha' hb' (Nat.lt_of_succ_lt_succ hlt)
          rw [List.indexOf_cons_ne _ (fun h => hax h.symm),
            List.indexOf_cons_ne _ (fun h => hbx h.symm)]
          exact Nat.succ_lt_succ this
    · rw [List.filter_cons_of_neg hpx] at ha hb hlt
      have hax : a ≠ x := by
        intro h; subst h
        exact hpx (List.mem_filter.mp ha).2
      have hbx : b ≠ x := by
        intro h; subst h
        exact hpx (List.mem_filter.mp hb).2
      have := ih a b ha hb hlt
      rw [List.indexOf_cons_ne _ (fun h => hax h.symm),
        List.indexOf_cons_ne _ (fun h => hbx h.symm)]
      exact Nat.succ_lt_succ this

theorem jsSetDedup_pairwise_indexOf {α : Type} [DecidableEq α] (l : List α) :
    (jsSetDedup l).Pairwise (fun a b => l.indexOf a < l.indexOf b) := by
  induction l using jsSetDedup_induction with
  | h0 => simp [jsSetDedup, jsSetDedupAux]
  | h1 x xs ih =>
    rw [jsSetDedup_cons]
    refine List.Pairwise.cons ?_ ?_
    · intro b hb
      have hbf := (mem_jsSetDedup _ b).mp hb
      have hbne : b ≠ x := by
        have := (List.mem_filter.mp hbf).2
        simpa using this
      rw [List.indexOf_cons_self, List.indexOf_cons_ne _ (fun h => hbne h.symm)]
      exact Nat.succ_pos _
    · refine List.Pairwise.imp_of_mem ?_ ih
      intro a b hma hmb hab
      have hma' := (mem_jsSetDedup _ a).mp hma
      have hmb' := (mem_jsSetDedup _ b).mp hmb
      have hax : a ≠ x := by
        have := (List.mem_filter.mp hma').2; simpa using this
      have hbx : b ≠ x := by
        have := (List.mem_filter.mp hmb').2; simpa using this
      have := indexOf_lt_of_filter _ xs a b hma' hmb' hab
      rw [List.indexOf_cons_ne _ (fun h => hax h.symm),
        List.indexOf_cons_ne _ (fun h => hbx h.symm)]
      exact Nat.succ_lt_succ this

/-- `getSearchCommentsTable`: project each comment search result onto the
two displayed fields. -/
def getSearchCommentsTable (searchResults : List CommentSearchResult) :
    List SearchCommentsTable :=
  searchResults.map (fun res =>
    { feedbackSession := res.feedbackSession, questions := res.questions })

/-- `getCoursesWithStudents`: group the flat student list by distinct course
id (first-seen order, via a JavaScript `Set`), deduplicate the students of
each course by value (again via a `Set`), and wrap each student in a row
with both permission flags initialised to `false`. -/
def getCoursesWithStudents (students : List Student) :
    List SearchStudentsListRowTable :=
  let distinctCourses : List String := jsSetDedup (students.map (fun s => s.courseId))
  let coursesWithStudents : List SearchStudentsListRowTable := distinctCourses.map
    (fun courseId =>
      { courseId := courseId
        students := (jsSetDedup
            (students.filter (fun s => s.courseId = courseId))).map (fun s =>
          { student := s
            isAllowedToViewStudentInSection := false
            isAllowedToModifyStudent := false }) })
  coursesWithStudents

/-- The `(courseId, sectionName)` pairs for which
`searchService.searchInstructorPrivilege` is invoked while the per-course
`sectionToPrivileges` record is built: one per distinct section of each
course.  Modelled from the spec: the service itself is not in the given
source; per the spec a lookup is issued once at creation and shared by all
rows of the section. -/
def getPrivilegesLookups (coursesWithStudents : List SearchStudentsListRowTable) :
    List (String × String) :=
  coursesWithStudents.flatMap (fun course =>
    (jsSetDedup (course.students.map
        (fun studentModel => studentModel.student.sectionName))).map
      (fun sectionName => (course.courseId, sectionName)))

/-- The keys of the observables pushed onto the `privileges` array: one per
student row (row order), each referencing the shared lookup of the row's
section in its course. -/
def rowLookupKeys (coursesWithStudents : List SearchStudentsListRowTable) :
    List (String × String) :=
  coursesWithStudents.flatMap (fun course =>
    course.students.map (fun studentModel =>
      (course.courseId, studentModel.student.sectionName)))

/-- RxJS `forkJoin` on a list of settled outcomes: succeeds with all values
in order, or fails when any member fails (deterministically with the first
failure in list order). -/
def forkJoinE {ε α : Type} : List (Except ε α) → Except ε (List α)
  | [] => .ok []
  | .error e :: _ => .error e
  | .ok v :: xs => (forkJoinE xs).map (fun vs => v :: vs)

/-- Environment of remote operations provided by `SearchService`.  Modelled
from the spec (the service implementation is outside the given source):
each operation is an async call that either yields a result or fails. -/
structure SearchServiceEnv where
  searchComment : String → Except ErrorMessageOutput InstructorSearchResult
  searchInstructor : String → Except ErrorMessageOutput InstructorSearchResult
  searchInstructorPrivilege : String → String → Except ErrorMessageOutput InstructorPrivilege

/-- `getPrivileges`: empty course list short-circuits to an empty result;
otherwise one privilege outcome per student row, rows of one section sharing
the section's single lookup, all joined with `forkJoin`. -/
def getPrivileges (env : SearchServiceEnv)
    (coursesWithStudents : List SearchStudentsListRowTable) :
    Except ErrorMessageOutput (List InstructorPrivilege) :=
  if coursesWithStudents.length = 0 then .ok []
  else forkJoinE ((rowLookupKeys coursesWithStudents).map
    (fun k => env.searchInstructorPrivilege k.1 k.2))

/-- The two assignments of `combinePrivileges`: overwrite a row's permission
flags from a popped privilege object. -/
def updateRow (studentModel : StudentListRowModel)
    (sectionPrivileges : InstructorPrivilege) : StudentListRowModel :=
  { studentModel with
    isAllowedToViewStudentInSection := sectionPrivileges.canViewStudentInSections
    isAllowedToModifyStudent := sectionPrivileges.canModifyStudent }

/-- One loop iteration of `combinePrivileges` over the rows of one course:
`privileges.shift()` pops the front; an exhausted array yields `undefined`
and the row is skipped with its flags unchanged. -/
def combineRows : List StudentListRowModel → List InstructorPrivilege →
    List StudentListRowModel × List InstructorPrivilege
  | [], privileges => ([], privileges)
  | studentModel :: rest, [] => (studentModel :: rest, [])
  | studentModel :: rest, sectionPrivileges :: privileges =>
    let next := combineRows rest privileges
    (updateRow studentModel sectionPrivileges :: next.1, next.2)

/-- The outer loop of `combinePrivileges` over the course groups, threading
the shared `privileges` array through the inner loops. -/
def combineCourses : List SearchStudentsListRowTable → List InstructorPrivilege →
    List SearchStudentsListRowTable × List InstructorPrivilege
  | [], privileges => ([], privileges)
  | course :: rest, privileges =>
    let inner := combineRows course.students privileges
    let outer := combineCourses rest inner.2
    ({ course with students := inner.1 } :: outer.1, outer.2)

/-- `combinePrivileges`: pop the privilege objects one at a time, in the
same nested course/row order used to build the request list, and attach
them to the rows; returns the student tables plus an empty comment table. -/
def combinePrivileges
    (input : List SearchStudentsListRowTable × List InstructorPrivilege) :
    TransformedInstructorSearchResult :=
  { searchStudentTables := some (combineCourses input.1 input.2).1
    searchCommentTables := some [] }

/-- JavaScript truthiness of `x && x.length` for a possibly-absent array
`x`: false when the field is absent (`undefined`) or the array is empty. -/
def truthyLen {α : Type} : Option (List α) → Bool
  | some l => !l.isEmpty
  | none => false

/-- Toast notifications emitted through `StatusMessageService`. -/
inductive Toast where
  | warning (message : String)
  | error (message : String)
deriving DecidableEq, Repr

/-- UI-visible state owned by the page component.  `commentTables` is
`Option`-valued because the success callback can assign the absent
(`undefined`) comment field of the student-only placeholder to it. -/
structure PageState where
  searchParams : SearchParams
  studentsListRowTables : List SearchStudentsListRowTable
  commentTables : Option (List SearchCommentsTable)
  isSearching : Bool
deriving DecidableEq, Repr

/-- The comment branch of the `forkJoin` in `search()`: when enabled, fetch
and project comments (with an empty student table); otherwise the empty
placeholder with both fields absent. -/
def commentBranch (env : SearchServiceEnv) (params : SearchParams) :
    Except ErrorMessageOutput TransformedInstructorSearchResult :=
  if params.isSearchForComments then
    (env.searchComment params.searchKey).map (fun resp =>
      { searchCommentTables := some (getSearchCommentsTable resp.comments)
        searchStudentTables := some [] })
  else .ok { searchCommentTables := none, searchStudentTables := none }

/-- The student branch of the `forkJoin` in `search()`: when enabled, fetch
students, group them by course, fetch privileges and combine; otherwise the
empty placeholder with both fields absent. -/
def studentBranch (env : SearchServiceEnv) (params : SearchParams) :
    Except ErrorMessageOutput TransformedInstructorSearchResult :=
  if params.isSearchForStudents then
    (env.searchInstructor params.searchKey).bind (fun res =>
      let coursesWithStudents := getCoursesWithStudents res.students
      (getPrivileges env coursesWithStudents).map (fun privileges =>
        combinePrivileges (coursesWithStudents, privileges)))
  else .ok { searchCommentTables := none, searchStudentTables := none }

/-- `search()`: guard clause, then the two branches joined by `forkJoin`;
on success assign the comment table, conditionally replace the student
table and possibly warn; on failure show the error's message.  The busy
flag is cleared by `finalize` on completion either way.  Returns the new
state together with the toast notifications emitted. -/
def search (env : SearchServiceEnv) (st : PageState) : PageState × List Toast :=
  if !(st.searchParams.isSearchForComments || st.searchParams.isSearchForStudents)
      || st.searchParams.searchKey == "" then
    (st, [])
  else
    match commentBranch env st.searchParams, studentBranch env st.searchParams with
    | .error resp, _ =>
      ({ st with isSearching := false }, [Toast.error resp.error.message])
    | .ok _, .error resp =>
      ({ st with isSearching := false }, [Toast.error resp.error.message])
    | .ok respComments, .ok respStudents =>
      let commentTables := respComments.searchCommentTables
      let searchStudentsTable := respStudents.searchStudentTables
      let hasStudents : Bool := truthyLen searchStudentsTable
      let hasComments : Bool := truthyLen commentTables
      ({ st with
          isSearching := false
          commentTables := commentTables
          studentsListRowTables :=
            if hasStudents then searchStudentsTable.getD [] else st.studentsListRowTables },
        if !hasStudents && !hasComments then [Toast.warning "No results found."] else [])

theorem combineRows_eq (rows : List StudentListRowModel) :
    ∀ ps : List InstructorPrivilege,
      combineRows rows ps =
        (List.zipWith updateRow rows ps ++ rows.drop ps.length, ps.drop rows.length) := by
  induction rows with
  | nil => intro ps; simp [combineRows]
  | cons r rs ih =>
    intro ps
    cases ps with
    | nil => simp [combineRows]
    | cons p ps => simp [combineRows, ih ps]

theorem zipWith_append_left {α β γ : Type} (f : α → β → γ) :
    ∀ (l₁ l₂ : List α) (l : List β),
      List.zipWith f (l₁ ++ l₂) l =
        List.zipWith f l₁ l ++ List.zipWith f l₂ (l.drop l₁.length) := by
  intro l₁
  induction l₁ with
  | nil => intro l₂ l; simp
  | cons a l₁ ih =>
    intro l₂ l
    cases l with
    | nil => simp
    | cons b l => simp [ih]

/-- All student rows of all course groups, in the nested walk order used both
to build the privilege request list and to consume it. -/
def flatRows (courses : List SearchStudentsListRowTable) : List StudentListRowModel :=
  courses.flatMap (fun course => course.students)

theorem combineCourses_eq (courses : List SearchStudentsListRowTable) :
    ∀ ps : List InstructorPrivilege,
      flatRows (combineCourses courses ps).1 =
          List.zipWith updateRow (flatRows courses) ps ++ (flatRows courses).drop ps.length
        ∧ (combineCourses courses ps).2 = ps.drop (flatRows courses).length := by
  induction courses with
  | nil => intro ps; simp [combineCourses, flatRows]
  | cons c cs ih =>
    intro ps
    have hrows := combineRows_eq c.students ps
    have hih := ih (ps.drop c.students.length)
    constructor
    · show flatRows ({ c with students := (combineRows c.students ps).1 } ::
          (combineCourses cs (combineRows c.students ps).2).1) = _
      rw [show flatRows ({ c with students := (combineRows c.students ps).1 } ::
            (combineCourses cs (combineRows c.students ps).2).1)
          = (combineRows c.students ps).1 ++
            flatRows (combineCourses cs (combineRows c.students ps).2).1 by
        simp [flatRows]]
      rw [hrows]
      have hflat : flatRows (c :: cs) = c.students ++ flatRows cs := by simp [flatRows]
      rw [hflat, zipWith_append_left, List.drop_append_eq_append_drop]
      rw [hih.1]
      by_cases hle : ps.length ≤ c.students.length
      · have hz : List.zipWith updateRow (flatRows cs) (ps.drop c.students.length) = [] := by
          rw [List.drop_eq_nil_of_le hle]; simp
        have hd : (ps.drop c.students.length).length = ps.length - c.students.length := by
          simp
        rw [hz, hd]
        simp
      · push_neg at hle
        have hnil : c.students.drop ps.length = [] :=
          List.drop_eq_nil_of_le (Nat.le_of_lt hle)
        have hd : (ps.drop c.students.length).length = ps.length - c.students.length := by
          simp
        rw [hnil, hd]
        simp
    · show (combineCourses cs (combineRows c.students ps).2).2 = _
      rw [hrows]
      rw [hih.2]
      have hflat : flatRows (c :: cs) = c.students ++ flatRows cs := by simp [flatRows]
      rw [hflat]
      simp [List.drop_drop, Nat.add_comm]

/-- The privilege value each row receives when every lookup succeeds, one per
row of the course, in row order. -/
def perRowPrivileges (priv : String → String → InstructorPrivilege)
    (course : SearchStudentsListRowTable) : List InstructorPrivilege :=
  course.students.map (fun r => priv course.courseId r.student.sectionName)

theorem zipWith_map_self {α β γ : Type} (f : α → β → γ) (g : α → β) :
    ∀ (S : List α) (R : List β),
      List.zipWith f S (S.map g ++ R) = S.map (fun a => f a (g a)) := by
  intro S
  induction S with
  | nil => intro R; simp
  | cons a S ih => intro R; simp [ih]

theorem combineRows_aligned (priv : String → String → InstructorPrivilege)
    (c : SearchStudentsListRowTable) (rest : List InstructorPrivilege) :
    combineRows c.students (perRowPrivileges priv c ++ rest) =
      (c.students.map (fun r => updateRow r (priv c.courseId r.student.sectionName)), rest) := by
  rw [combineRows_eq]
  have hlen : (perRowPrivileges priv c).length = c.students.length := by
    simp [perRowPrivileges]
  refine Prod.ext ?_ ?_
  · show List.zipWith updateRow c.students (perRowPrivileges priv c ++ rest) ++
        c.students.drop (perRowPrivileges priv c ++ rest).length = _
    rw [show perRowPrivileges priv c =
        c.students.map (fun r => priv c.courseId r.student.sectionName) from rfl]
    rw [zipWith_map_self]
    have : c.students.drop
        (c.students.map (fun r => priv c.courseId r.student.sectionName) ++ rest).length = [] := by
      apply List.drop_eq_nil_of_le
      simp
    rw [this, List.append_nil]
  · show (perRowPrivileges priv c ++ rest).drop c.students.length = _
    exact List.drop_left' hlen

theorem combineCourses_aligned (priv : String → String → InstructorPrivilege) :
    ∀ (courses : List SearchStudentsListRowTable) (rest : List InstructorPrivilege),
      combineCourses courses (courses.flatMap (perRowPrivileges priv) ++ rest) =
        (courses.map (fun c =>
            { c with students :=
                c.students.map (fun r =>
                  updateRow r (priv c.courseId r.student.sectionName)) }),
          rest) := by
  intro courses
  induction courses with
  | nil => intro rest; simp [combineCourses]
  | cons c cs ih =>
    intro rest
    rw [List.flatMap_cons, List.append_assoc]
    have hrows := combineRows_aligned priv c (cs.flatMap (perRowPrivileges priv) ++ rest)
    simp only [combineCourses, hrows, ih rest, List.map_cons]

theorem forkJoinE_map_ok {ε α β : Type} (f : β → α) :
    ∀ keys : List β,
      forkJoinE (keys.map (fun k => (Except.ok (f k) : Except ε α))) = .ok (keys.map f) := by
  intro keys
  induction keys with
  | nil => rfl
  | cons k ks ih => simp [forkJoinE, ih, Except.map]

theorem getPrivileges_ok (env : SearchServiceEnv)
    (priv : String → String → InstructorPrivilege)
    (hpriv : ∀ c s, env.searchInstructorPrivilege c s = .ok (priv c s))
    (courses : List SearchStudentsListRowTable) :
    getPrivileges env courses = .ok (courses.flatMap (perRowPrivileges priv)) := by
  unfold getPrivileges
  by_cases h : courses.length = 0
  · have hnil : courses = [] := List.length_eq_zero.mp h
    subst hnil
    simp
  · rw [if_neg h]
    have hmap : (rowLookupKeys courses).map
          (fun k => env.searchInstructorPrivilege k.1 k.2)
        = (rowLookupKeys courses).map (fun k => Except.ok (priv k.1 k.2)) := by
      simp only [hpriv]
    rw [hmap, forkJoinE_map_ok (fun k : String × String => priv k.1 k.2) (rowLookupKeys courses)]
    congr 1
    rw [rowLookupKeys, List.map_flatMap]
    congr 1
    funext course
    simp [perRowPrivileges, Function.comp]

theorem getCoursesWithStudents_def (students : List Student) :
    getCoursesWithStudents students =
      (jsSetDedup (students.map (fun s => s.courseId))).map (fun courseId =>
        { courseId := courseId
          students := (jsSetDedup (students.filter (fun s => s.courseId = courseId))).map
            (fun s =>
              { student := s
                isAllowedToViewStudentInSection := false
                isAllowedToModifyStudent := false }) }) := rfl

theorem map_courseId_mk (F : String → List StudentListRowModel) :
    ∀ l : List String,
      ((l.map (fun courseId =>
          ({ courseId := courseId, students := F courseId } : SearchStudentsListRowTable))).map
        (fun g => g.courseId)) = l := by
  intro l
  induction l with
  | nil => rfl
  | cons a l ih => simp [ih]

theorem getCoursesWithStudents_courseIds (students : List Student) :
    (getCoursesWithStudents students).map (fun g => g.courseId)
      = jsSetDedup (students.map (fun s => s.courseId)) := by
  rw [getCoursesWithStudents_def]
  exact map_courseId_mk _ _

theorem getCoursesWithStudents_students (students : List Student)
    (g : SearchStudentsListRowTable) (hg : g ∈ getCoursesWithStudents students) :
    g.students = (jsSetDedup (students.filter (fun s => s.courseId = g.courseId))).map
        (fun s =>
          { student := s
            isAllowedToViewStudentInSection := false
            isAllowedToModifyStudent := false })
      ∧ g.courseId ∈ jsSetDedup (students.map (fun s => s.courseId)) := by
  rw [getCoursesWithStudents_def] at hg
  rcases List.mem_map.mp hg with ⟨cid, hcid, hgeq⟩
  subst hgeq
  exact ⟨rfl, hcid⟩

theorem map_student_mk :
    ∀ l : List Student,
      ((l.map (fun s =>
          ({ student := s
             isAllowedToViewStudentInSection := false
             isAllowedToModifyStudent := false } : StudentListRowModel))).map
        (fun r => r.student)) = l := by
  intro l
  induction l with
  | nil => rfl
  | cons a l ih => simp [ih]

theorem getCoursesWithStudents_proj (students : List Student)
    (g : SearchStudentsListRowTable) (hg : g ∈ getCoursesWithStudents students) :
    g.students.map (fun r => r.student)
      = jsSetDedup (students.filter (fun s => s.courseId = g.courseId)) := by
  rw [(getCoursesWithStudents_students students g hg).1]
  exact map_student_mk _

theorem getCoursesWithStudents_row (students : List Student)
    (g : SearchStudentsListRowTable) (r : StudentListRowModel)
    (hg : g ∈ getCoursesWithStudents students) (hr : r ∈ g.students) :
    r.isAllowedToViewStudentInSection = false ∧ r.isAllowedToModifyStudent = false
      ∧ r.student.courseId = g.courseId ∧ r.student ∈ students := by
  rw [(getCoursesWithStudents_students students g hg).1] at hr
  rcases List.mem_map.mp hr with ⟨s, hs, hseq⟩
  subst hseq
  have hsf := (mem_jsSetDedup _ s).mp hs
  have hmem := List.mem_filter.mp hsf
  refine ⟨rfl, rfl, ?_, hmem.1⟩
  simpa using hmem.2

theorem commentBranch_enabled (env : SearchServiceEnv) (params : SearchParams)
    (isr : InstructorSearchResult)
    (hc : params.isSearchForComments = true)
    (hres : env.searchComment params.searchKey = .ok isr) :
    commentBranch env params = .ok
      { searchCommentTables := some (getSearchCommentsTable isr.comments)
        searchStudentTables := some [] } := by
  simp [commentBranch, hc, hres, Except.map]

theorem commentBranch_disabled (env : SearchServiceEnv) (params : SearchParams)
    (hc : params.isSearchForComments = false) :
    commentBranch env params =
      .ok { searchCommentTables := none, searchStudentTables := none } := by
  simp [commentBranch, hc]

theorem studentBranch_disabled (env : SearchServiceEnv) (params : SearchParams)
    (hs : params.isSearchForStudents = false) :
    studentBranch env params =
      .ok { searchCommentTables := none, searchStudentTables := none } := by
  simp [studentBranch, hs]

theorem studentBranch_enabled (env : SearchServiceEnv)
    (priv : String → String → InstructorPrivilege)
    (params : SearchParams) (isr : InstructorSearchResult)
    (hs : params.isSearchForStudents = true)
    (hres : env.searchInstructor params.searchKey = .ok isr)
    (hpriv : ∀ c s, env.searchInstructorPrivilege c s = .ok (priv c s)) :
    studentBranch env params = .ok
      { searchStudentTables := some ((getCoursesWithStudents isr.students).map (fun c =>
          { c with students :=
              c.students.map (fun r =>
                updateRow r (priv c.courseId r.student.sectionName)) }))
        searchCommentTables := some [] } := by
  have hflat := combineCourses_aligned priv (getCoursesWithStudents isr.students) []
  rw [List.append_nil] at hflat
  simp [studentBranch, hs, hres, Except.bind, getPrivileges_ok env priv hpriv,
    Except.map, combinePrivileges, hflat]

theorem search_guard_false (st : PageState)
    (hg : (st.searchParams.isSearchForComments || st.searchParams.isSearchForStudents) = true)
    (hk : st.searchParams.searchKey ≠ "") :
    (!(st.searchParams.isSearchForComments || st.searchParams.isSearchForStudents)
      || st.searchParams.searchKey == "") = false := by
  simp [hg, hk]

theorem search_ok (env : SearchServiceEnv) (st : PageState)
    (r0 r1 : TransformedInstructorSearchResult)
    (hg : (st.searchParams.isSearchForComments || st.searchParams.isSearchForStudents) = true)
    (hk : st.searchParams.searchKey ≠ "")
    (hc : commentBranch env st.searchParams = .ok r0)
    (hs : studentBranch env st.searchParams = .ok r1) :
    search env st =
      ({ st with
          isSearching := false
          commentTables := r0.searchCommentTables
          studentsListRowTables :=
            if truthyLen r1.searchStudentTables then r1.searchStudentTables.getD []
            else st.studentsListRowTables },
        if !truthyLen r1.searchStudentTables && !truthyLen r0.searchCommentTables
          then [Toast.warning "No results found."] else []) := by
  unfold search
  rw [search_guard_false st hg hk, hc, hs]
  rfl

theorem search_error_comment (env : SearchServiceEnv) (st : PageState)
    (e : ErrorMessageOutput)
    (hg : (st.searchParams.isSearchForComments || st.searchParams.isSearchForStudents) = true)
    (hk : st.searchParams.searchKey ≠ "")
    (hc : commentBranch env st.searchParams = .error e) :
    search env st = ({ st with isSearching := false }, [Toast.error e.error.message]) := by
  unfold search
  rw [search_guard_false st hg hk, hc]
  rfl

theorem search_error_student (env : SearchServiceEnv) (st : PageState)
    (r0 : TransformedInstructorSearchResult) (e : ErrorMessageOutput)
    (hg : (st.searchParams.isSearchForComments || st.searchParams.isSearchForStudents) = true)
    (hk : st.searchParams.searchKey ≠ "")
    (hc : commentBranch env st.searchParams = .ok r0)
    (hs : studentBranch env st.searchParams = .error e) :
    search env st = ({ st with isSearching := false }, [Toast.error e.error.message]) := by
  unfold search
  rw [search_guard_false st hg hk, hc, hs]
  rfl

theorem truthyLen_false_iff {α : Type} (o : Option (List α)) :
    truthyLen o = false ↔ o.getD [] = [] := by
  cases o with
  | none => simp [truthyLen]
  | some l => simp [truthyLen]

theorem forkJoinE_error_mem {ε α : Type} :
    ∀ (xs : List (Except ε α)) (e : ε), forkJoinE xs = .error e → .error e ∈ xs := by
  intro xs
  induction xs with
  | nil => intro e h; simp [forkJoinE] at h
  | cons x xs ih =>
    intro e h
    cases x with
    | error e' =>
      simp only [forkJoinE] at h
      cases h
      exact List.mem_cons_self _ _
    | ok v =>
      simp only [forkJoinE] at h
      cases hxs : forkJoinE xs with
      | error e'' =>
        rw [hxs] at h
        simp [Except.map] at h
        subst h
        exact List.mem_cons_of_mem _ (ih e'' hxs)
      | ok vs => rw [hxs] at h; simp [Except.map] at h

theorem forkJoinE_isError_of_mem {ε α : Type} :
    ∀ (xs : List (Except ε α)) (e : ε), .error e ∈ xs →
      ∃ e', forkJoinE xs = .error e' := by
  intro xs
  induction xs with
  | nil => intro e h; simp at h
  | cons x xs ih =>
    intro e h
    cases x with
    | error e' => exact ⟨e', rfl⟩
    | ok v =>
      have hmem : Except.error e ∈ xs := by
        rcases List.mem_cons.mp h with h' | h'
        · exact absurd h' (by simp)
        · exact h'
      rcases ih e hmem with ⟨e', he'⟩
      refine ⟨e', ?_⟩
      simp [forkJoinE, he', Except.map]

theorem getPrivileges_error_mem (env : SearchServiceEnv)
    (courses : List SearchStudentsListRowTable) (e : ErrorMessageOutput)
    (h : getPrivileges env courses = .error e) :
    ∃ k ∈ rowLookupKeys courses, env.searchInstructorPrivilege k.1 k.2 = .error e := by
  unfold getPrivileges at h
  by_cases hlen : courses.length = 0
  · rw [if_pos hlen] at h; simp at h
  · rw [if_neg hlen] at h
    have := forkJoinE_error_mem _ _ h
    rcases List.mem_map.mp this with ⟨k, hk, hke⟩
    exact ⟨k, hk, hke⟩

theorem getPrivileges_error_of_mem (env : SearchServiceEnv)
    (courses : List SearchStudentsListRowTable) (k : String × String)
    (e : ErrorMessageOutput)
    (hk : k ∈ rowLookupKeys courses)
    (he : env.searchInstructorPrivilege k.1 k.2 = .error e) :
    ∃ e', getPrivileges env courses = .error e' := by
  have hlen : ¬courses.length = 0 := by
    intro h0
    have : courses = [] := List.length_eq_zero.mp h0
    subst this
    simp [rowLookupKeys] at hk
  unfold getPrivileges
  rw [if_neg hlen]
  exact forkJoinE_isError_of_mem _ e
    (List.mem_map.mpr ⟨k, hk, he⟩)

theorem commentBranch_error_iff (env : SearchServiceEnv) (params : SearchParams)
    (e : ErrorMessageOutput) :
    commentBranch env params = .error e ↔
      params.isSearchForComments = true ∧ env.searchComment params.searchKey = .error e := by
  unfold commentBranch
  by_cases hc : params.isSearchForComments
  · cases hres : env.searchComment params.searchKey with
    | error e' => simp [hc, hres, Except.map]
    | ok isr => simp [hc, hres, Except.map]
  · simp [hc]

theorem studentBranch_error_iff (env : SearchServiceEnv) (params : SearchParams)
    (e : ErrorMessageOutput) :
    studentBranch env params = .error e ↔
      params.isSearchForStudents = true ∧
        (env.searchInstructor params.searchKey = .error e
          ∨ ∃ isr, env.searchInstructor params.searchKey = .ok isr ∧
              getPrivileges env (getCoursesWithStudents isr.students) = .error e) := by
  unfold studentBranch
  by_cases hs : params.isSearchForStudents
  · cases hres : env.searchInstructor params.searchKey with
    | error e' =>
      simp [hs, hres, Except.bind]
    | ok isr =>
      simp only [hs, if_true, hres, Except.bind]
      cases hp : getPrivileges env (getCoursesWithStudents isr.students) with
      | error e' => simp [hp, Except.map, hs]
      | ok privs => simp [hp, Except.map, hs]
  · simp [hs]

/-- Student 1 of the specification's worked example. -/
def exampleStudent1 : Student :=
  { courseId := "C1", sectionName := "S1", profile := "1" }

/-- Student 2 of the specification's worked example. -/
def exampleStudent2 : Student :=
  { courseId := "C1", sectionName := "S1", profile := "2" }

/-- Student 3 of the specification's worked example. -/
def exampleStudent3 : Student :=
  { courseId := "C2", sectionName := "S2", profile := "3" }

/-- The student list of the specification's worked example. -/
def exampleStudents : List Student :=
  [exampleStudent1, exampleStudent2, exampleStudent3]

/-- A concrete privilege oracle used in witnesses. -/
def examplePriv (c s : String) : InstructorPrivilege :=
  { canViewStudentInSections := c == "C1", canModifyStudent := s == "S2" }

/-- Environment whose student search returns the worked example and whose
privilege lookups all succeed with `examplePriv`. -/
def exampleEnv : SearchServiceEnv :=
  { searchComment := fun _ => .ok { students := [], comments := [] }
    searchInstructor := fun _ => .ok { students := exampleStudents, comments := [] }
    searchInstructorPrivilege := fun c s => .ok (examplePriv c s) }

/-- Environment whose every remote call fails with message "boom". -/
def exampleErrorEnv : SearchServiceEnv :=
  { searchComment := fun _ => .error { error := { message := "boom" } }
    searchInstructor := fun _ => .error { error := { message := "boom" } }
    searchInstructorPrivilege := fun _ _ => .error { error := { message := "boom" } } }

/-- Environment whose searches succeed but return no results at all. -/
def emptyResultEnv : SearchServiceEnv :=
  { searchComment := fun _ => .ok { students := [], comments := [] }
    searchInstructor := fun _ => .ok { students := [], comments := [] }
    searchInstructorPrivilege := fun c s => .ok (examplePriv c s) }

/-- A page state about to run a search for both students and comments. -/
def exampleState : PageState :=
  { searchParams := { searchKey := "q", isSearchForStudents := true, isSearchForComments := true }
    studentsListRowTables := []
    commentTables := some []
    isSearching := false }

/-- A previously displayed student table. -/
def retainedTable : SearchStudentsListRowTable :=
  { courseId := "C0"
    students := [{ student := { courseId := "C0", sectionName := "S0", profile := "p" }
                   isAllowedToViewStudentInSection := false
                   isAllowedToModifyStudent := false }] }

/-- A page state with a previously displayed student table, about to run a
comment-only search. -/
def commentOnlyRetainedState : PageState :=
  { searchParams := { searchKey := "q", isSearchForStudents := false, isSearchForComments := true }
    studentsListRowTables := [retainedTable]
    commentTables := some []
    isSearching := false }

/-- A page state with a previously displayed comment table, about to run a
student-only search. -/
def studentOnlyState : PageState :=
  { searchParams := { searchKey := "q", isSearchForStudents := true, isSearchForComments := false }
    studentsListRowTables := []
    commentTables := some [{ feedbackSession := "f", questions := [] }]
    isSearching := false }

/-- A page state whose query text is a single space (not trimmed). -/
def whitespaceKeyState : PageState :=
  { searchParams := { searchKey := " ", isSearchForStudents := true, isSearchForComments := false }
    studentsListRowTables := []
    commentTables := some []
    isSearching := false }

/-- A page state whose query text is empty. -/
def emptyKeyState : PageState :=
  { searchParams := { searchKey := "", isSearchForStudents := true, isSearchForComments := true }
    studentsListRowTables := []
    commentTables := some []
    isSearching := false }

/-- C6: for every `SearchParams` with both search toggles false, or with
`searchKey` equal to the empty string exactly, `search()` is a no-op: no
remote call is performed (the result is `(st, [])` for every environment),
the busy flag is not changed and all result tables are left unchanged.
Whitespace-only query text does not count as empty: with key `" "` and a
toggle enabled the call is not a no-op. -/
theorem search_validation_noop :
    (∀ (env : SearchServiceEnv) (st : PageState),
        (st.searchParams.isSearchForComments = false
            ∧ st.searchParams.isSearchForStudents = false)
          ∨ st.searchParams.searchKey = "" →
        search env st = (st, []))
      ∧ (∃ (env : SearchServiceEnv) (st : PageState),
          st.searchParams.searchKey = " " ∧ st.searchParams.isSearchForStudents = true
            ∧ search env st ≠ (st, [])) := by
  constructor
  · intro env st h
    unfold search
    rcases h with ⟨h1, h2⟩ | h
    · simp [h1, h2]
    · simp [h]
  · exact ⟨exampleErrorEnv, whitespaceKeyState, rfl, rfl, by decide⟩

/-- Witness for C6 at a concrete empty-key state and environment. -/
theorem search_validation_noop_witness :
    search exampleErrorEnv emptyKeyState = (emptyKeyState, []) :=
  search_validation_noop.1 exampleErrorEnv emptyKeyState (Or.inr rfl)

/-- C7: `getCoursesWithStudents` is order-preserving: the course groups carry
the distinct course ids in first-seen input order (no duplicate, exactly the
ids occurring in the input, ordered by first occurrence index), and inside
each group the deduplicated student rows preserve first-seen input order,
every row having both permission flags initialised to false. -/
theorem getCoursesWithStudents_order (students : List Student) :
    (((getCoursesWithStudents students).map (fun g => g.courseId)).Nodup
        ∧ (∀ c, c ∈ (getCoursesWithStudents students).map (fun g => g.courseId)
            ↔ c ∈ students.map (fun s => s.courseId))
        ∧ ((getCoursesWithStudents students).map (fun g => g.courseId)).Pairwise
            (fun a b => (students.map (fun s => s.courseId)).indexOf a
              < (students.map (fun s => s.courseId)).indexOf b))
      ∧ ∀ g ∈ getCoursesWithStudents students,
          (g.students.map (fun r => r.student)).Nodup
            ∧ (∀ s, s ∈ g.students.map (fun r => r.student)
                ↔ s ∈ students ∧ s.courseId = g.courseId)
            ∧ (g.students.map (fun r => r.student)).Pairwise
                (fun a b => students.indexOf a < students.indexOf b)
            ∧ ∀ r ∈ g.students, r.isAllowedToViewStudentInSection = false
                ∧ r.isAllowedToModifyStudent = false := by
  constructor
  · rw [getCoursesWithStudents_courseIds]
    exact ⟨jsSetDedup_nodup _, fun c => mem_jsSetDedup _ c, jsSetDedup_pairwise_indexOf _⟩
  · intro g hg
    have hproj := getCoursesWithStudents_proj students g hg
    refine ⟨?_, ?_, ?_, ?_⟩
    · rw [hproj]; exact jsSetDedup_nodup _
    · intro s
      rw [hproj, mem_jsSetDedup, List.mem_filter]
      simp
    · rw [hproj]
      refine List.Pairwise.imp_of_mem ?_ (jsSetDedup_pairwise_indexOf _)
      intro a b hma hmb hab
      exact indexOf_lt_of_filter _ students a b
        ((mem_jsSetDedup _ a).mp hma) ((mem_jsSetDedup _ b).mp hmb) hab
    · intro r hr
      have := getCoursesWithStudents_row students g r hg hr
      exact ⟨this.1, this.2.1⟩

/-- The course group produced for course C1 of the worked example. -/
def exampleGroupC1 : SearchStudentsListRowTable :=
  { courseId := "C1"
    students := [{ student := exampleStudent1
                   isAllowedToViewStudentInSection := false
                   isAllowedToModifyStudent := false },
                 { student := exampleStudent2
                   isAllowedToViewStudentInSection := false
                   isAllowedToModifyStudent := false }] }

/-- Witness for C7: rows of the example's C1 course group are
duplicate-free. -/
theorem getCoursesWithStudents_order_witness :
    (exampleGroupC1.students.map (fun r => r.student)).Nodup :=
  ((getCoursesWithStudents_order exampleStudents).2 exampleGroupC1 (by decide)).1

/-- C8: grouping deduplicates by exact value only: every student value of the
input appears exactly once among the rows of its course group (so the same
value occurring twice collapses to one row), while two distinct student
values that merely share identifying fields both remain as separate rows of
the same group. -/
theorem getCoursesWithStudents_dedup_by_value (students : List Student) :
    (∀ g ∈ getCoursesWithStudents students, ∀ s ∈ students, s.courseId = g.courseId →
        (g.students.map (fun r => r.student)).count s = 1)
      ∧ (∀ s₁ s₂ : Student, s₁ ∈ students → s₂ ∈ students → s₁ ≠ s₂ →
          s₁.courseId = s₂.courseId →
          ∃ g ∈ getCoursesWithStudents students,
            s₁ ∈ g.students.map (fun r => r.student)
              ∧ s₂ ∈ g.students.map (fun r => r.student)) := by
  constructor
  · intro g hg s hsmem hscourse
    rw [getCoursesWithStudents_proj students g hg]
    apply List.count_eq_one_of_mem (jsSetDedup_nodup _)
    rw [mem_jsSetDedup, List.mem_filter]
    exact ⟨hsmem, by simpa using hscourse⟩
  · intro s₁ s₂ h₁ h₂ _hne hcc
    have hcid : s₁.courseId ∈ jsSetDedup (students.map (fun s => s.courseId)) := by
      rw [mem_jsSetDedup]
      exact List.mem_map.mpr ⟨s₁, h₁, rfl⟩
    refine ⟨{ courseId := s₁.courseId
              students := (jsSetDedup (students.filter
                  (fun s => s.courseId = s₁.courseId))).map (fun s =>
                { student := s
                  isAllowedToViewStudentInSection := false
                  isAllowedToModifyStudent := false }) }, ?_, ?_, ?_⟩
    · rw [getCoursesWithStudents_def]
      exact List.mem_map.mpr ⟨s₁.courseId, hcid, rfl⟩
    · show s₁ ∈ ((jsSetDedup (students.filter (fun s => s.courseId = s₁.courseId))).map
        (fun s =>
          ({ student := s
             isAllowedToViewStudentInSection := false
             isAllowedToModifyStudent := false } : StudentListRowModel))).map
        (fun r => r.student)
      rw [map_student_mk, mem_jsSetDedup, List.mem_filter]
      exact ⟨h₁, by simp⟩
    · show s₂ ∈ ((jsSetDedup (students.filter (fun s => s.courseId = s₁.courseId))).map
        (fun s =>
          ({ student := s
             isAllowedToViewStudentInSection := false
             isAllowedToModifyStudent := false } : StudentListRowModel))).map
        (fun r => r.student)
      rw [map_student_mk, mem_jsSetDedup, List.mem_filter]
      exact ⟨h₂, by simp [hcc]⟩

/-- Witness for C8: the two distinct example students of course C1 that share
course and section both appear as rows of one group. -/
theorem getCoursesWithStudents_dedup_by_value_witness :
    ∃ g ∈ getCoursesWithStudents exampleStudents,
      exampleStudent1 ∈ g.students.map (fun r => r.student)
        ∧ exampleStudent2 ∈ g.students.map (fun r => r.student) :=
  (getCoursesWithStudents_dedup_by_value exampleStudents).2 exampleStudent1 exampleStudent2
    (by decide) (by decide) (by decide) rfl

/-- C2: at most one privilege lookup is issued per distinct
`(courseId, sectionName)` pair (the issued lookup list has no duplicate, and
every issued pair is the pair of one of the searched students); on the
worked example exactly 2 lookups are issued for 3 student rows. -/
theorem getPrivilegesLookups_distinct :
    (∀ students : List Student,
        (getPrivilegesLookups (getCoursesWithStudents students)).Nodup
          ∧ ∀ p ∈ getPrivilegesLookups (getCoursesWithStudents students),
              ∃ s ∈ students, p = (s.courseId, s.sectionName))
      ∧ (getPrivilegesLookups (getCoursesWithStudents exampleStudents)).length = 2
      ∧ (rowLookupKeys (getCoursesWithStudents exampleStudents)).length = 3 := by
  refine ⟨?_, by decide, by decide⟩
  intro students
  constructor
  · unfold getPrivilegesLookups
    rw [List.nodup_flatMap]
    constructor
    · intro g _hg
      refine List.Nodup.map ?_ (jsSetDedup_nodup _)
      intro a b hab
      exact congrArg Prod.snd hab
    · have hnodup : ((getCoursesWithStudents students).map (fun g => g.courseId)).Nodup := by
        rw [getCoursesWithStudents_courseIds]
        exact jsSetDedup_nodup _
      have hnodup' : ((getCoursesWithStudents students).map
          (fun g => g.courseId)).Pairwise (fun a b => a ≠ b) := hnodup
      have hpw := List.pairwise_map.mp hnodup'
      refine hpw.imp ?_
      intro g₁ g₂ hne
      intro x hx₁ hx₂
      rcases List.mem_map.mp hx₁ with ⟨a₁, _, hxe₁⟩
      rcases List.mem_map.mp hx₂ with ⟨a₂, _, hxe₂⟩
      apply hne
      calc g₁.courseId = x.1 := by rw [← hxe₁]
        _ = g₂.courseId := by rw [← hxe₂]
  · intro p hp
    unfold getPrivilegesLookups at hp
    rcases List.mem_flatMap.mp hp with ⟨g, hg, hpg⟩
    rcases List.mem_map.mp hpg with ⟨sec, hsec, hpe⟩
    have hsec' := (mem_jsSetDedup _ sec).mp hsec
    rcases List.mem_map.mp hsec' with ⟨r, hr, hre⟩
    have hrow := getCoursesWithStudents_row students g r hg hr
    refine ⟨r.student, hrow.2.2.2, ?_⟩
    rw [← hpe, ← hre, hrow.2.2.1]

/-- Witness for C2: the first issued lookup of the worked example is the
(course, section) pair of one of the searched students. -/
theorem getPrivilegesLookups_distinct_witness :
    ∃ s ∈ exampleStudents, (("C1", "S1") : String × String) = (s.courseId, s.sectionName) :=
  (getPrivilegesLookups_distinct.1 exampleStudents).2 ("C1", "S1") (by decide)

/-- C9: `combinePrivileges` is total for every privilege sequence, in
particular one shorter than the number of rows: privileges are consumed
positionally from the front (row `i` in walk order receives privilege `i`),
and every row beyond the length of the sequence is kept unchanged, prior
flags included. -/
theorem combinePrivileges_underrun (courses : List SearchStudentsListRowTable)
    (ps : List InstructorPrivilege) :
    combinePrivileges (courses, ps) =
        { searchStudentTables := some (combineCourses courses ps).1
          searchCommentTables := some [] }
      ∧ flatRows (combineCourses courses ps).1
          = List.zipWith updateRow (flatRows courses) ps
            ++ (flatRows courses).drop ps.length :=
  ⟨rfl, (combineCourses_eq courses ps).1⟩

/-- C1: after a successful student search in which every privilege lookup
succeeds with oracle `priv`, every row of the resulting course groups
carries exactly the privilege fetched for its own (courseId, sectionName)
pair, and any two rows sharing that pair carry identical flags. -/
theorem studentSearch_flags (env : SearchServiceEnv)
    (priv : String → String → InstructorPrivilege)
    (params : SearchParams) (isr : InstructorSearchResult)
    (htog : params.isSearchForStudents = true)
    (hres : env.searchInstructor params.searchKey = .ok isr)
    (hpriv : ∀ c s, env.searchInstructorPrivilege c s = .ok (priv c s)) :
    ∃ tables : List SearchStudentsListRowTable,
      studentBranch env params = .ok
          { searchStudentTables := some tables, searchCommentTables := some [] }
        ∧ (∀ g ∈ tables, ∀ r ∈ g.students,
            r.isAllowedToViewStudentInSection
                = (priv r.student.courseId r.student.sectionName).canViewStudentInSections
              ∧ r.isAllowedToModifyStudent
                = (priv r.student.courseId r.student.sectionName).canModifyStudent)
        ∧ (∀ g₁ ∈ tables, ∀ g₂ ∈ tables, ∀ r₁ ∈ g₁.students, ∀ r₂ ∈ g₂.students,
            r₁.student.courseId = r₂.student.courseId →
            r₁.student.sectionName = r₂.student.sectionName →
            r₁.isAllowedToViewStudentInSection = r₂.isAllowedToViewStudentInSection
              ∧ r₁.isAllowedToModifyStudent = r₂.isAllowedToModifyStudent) := by
  refine ⟨(getCoursesWithStudents isr.students).map (fun c =>
      { c with students :=
          c.students.map (fun r =>
            updateRow r (priv c.courseId r.student.sectionName)) }), ?_, ?_⟩
  · exact studentBranch_enabled env priv params isr htog hres hpriv
  · have hflags : ∀ g ∈ (getCoursesWithStudents isr.students).map (fun c =>
        { c with students :=
            c.students.map (fun r =>
              updateRow r (priv c.courseId r.student.sectionName)) }),
        ∀ r ∈ g.students,
          r.isAllowedToViewStudentInSection
              = (priv r.student.courseId r.student.sectionName).canViewStudentInSections
            ∧ r.isAllowedToModifyStudent
              = (priv r.student.courseId r.student.sectionName).canModifyStudent := by
      intro g hg r hr
      rcases List.mem_map.mp hg with ⟨g₀, hg₀, hge⟩
      subst hge
      rcases List.mem_map.mp hr with ⟨r₀, hr₀, hre⟩
      subst hre
      have hrow := getCoursesWithStudents_row isr.students g₀ r₀ hg₀ hr₀
      have hcid : r₀.student.courseId = g₀.courseId := hrow.2.2.1
      constructor
      · show (priv g₀.courseId r₀.student.sectionName).canViewStudentInSections = _
        rw [show (updateRow r₀ (priv g₀.courseId r₀.student.sectionName)).student
            = r₀.student from rfl, hcid]
      · show (priv g₀.courseId r₀.student.sectionName).canModifyStudent = _
        rw [show (updateRow r₀ (priv g₀.courseId r₀.student.sectionName)).student
            = r₀.student from rfl, hcid]
    refine ⟨hflags, ?_⟩
    intro g₁ hg₁ g₂ hg₂ r₁ hr₁ r₂ hr₂ hcc hss
    have h₁ := hflags g₁ hg₁ r₁ hr₁
    have h₂ := hflags g₂ hg₂ r₂ hr₂
    rw [h₁.1, h₁.2, h₂.1, h₂.2, hcc, hss]
    exact ⟨rfl, rfl⟩

/-- Witness for C1 at the worked example environment. -/
theorem studentSearch_flags_witness :
    ∃ tables : List SearchStudentsListRowTable,
      studentBranch exampleEnv exampleState.searchParams = .ok
          { searchStudentTables := some tables, searchCommentTables := some [] }
        ∧ (∀ g ∈ tables, ∀ r ∈ g.students,
            r.isAllowedToViewStudentInSection
                = (examplePriv r.student.courseId r.student.sectionName).canViewStudentInSections
              ∧ r.isAllowedToModifyStudent
                = (examplePriv r.student.courseId r.student.sectionName).canModifyStudent)
        ∧ (∀ g₁ ∈ tables, ∀ g₂ ∈ tables, ∀ r₁ ∈ g₁.students, ∀ r₂ ∈ g₂.students,
            r₁.student.courseId = r₂.student.courseId →
            r₁.student.sectionName = r₂.student.sectionName →
            r₁.isAllowedToViewStudentInSection = r₂.isAllowedToViewStudentInSection
              ∧ r₁.isAllowedToModifyStudent = r₂.isAllowedToModifyStudent) :=
  studentSearch_flags exampleEnv examplePriv exampleState.searchParams
    { students := exampleStudents, comments := [] } rfl rfl (fun _ _ => rfl)

/-- C3: on a successful search, the displayed student table is left exactly
unchanged whenever the student branch's new student result set is absent or
empty — in particular for every comment-only search — and is replaced by the
new course groups exactly when that set is non-empty. -/
theorem search_student_retention (env : SearchServiceEnv) (st : PageState)
    (r0 r1 : TransformedInstructorSearchResult)
    (hg : (st.searchParams.isSearchForComments || st.searchParams.isSearchForStudents) = true)
    (hk : st.searchParams.searchKey ≠ "")
    (hc : commentBranch env st.searchParams = .ok r0)
    (hs : studentBranch env st.searchParams = .ok r1) :
    ((r1.searchStudentTables = none ∨ r1.searchStudentTables = some []) →
        (search env st).1.studentsListRowTables = st.studentsListRowTables)
      ∧ (∀ l, r1.searchStudentTables = some l → l ≠ [] →
          (search env st).1.studentsListRowTables = l)
      ∧ (st.searchParams.isSearchForStudents = false →
          (search env st).1.studentsListRowTables = st.studentsListRowTables) := by
  rw [search_ok env st r0 r1 hg hk hc hs]
  refine ⟨?_, ?_, ?_⟩
  · intro h
    rcases h with h | h <;> simp [truthyLen, h]
  · intro l hl hne
    simp [truthyLen, hl, hne]
  · intro hfalse
    have hplc := studentBranch_disabled env st.searchParams hfalse
    have hr1 : r1 = { searchCommentTables := none, searchStudentTables := none } := by
      exact Except.ok.inj (hs.symm.trans hplc)
    subst hr1
    simp [truthyLen]

/-- Witness for C3: a comment-only search over a state with a previously
displayed student table leaves that table unchanged. -/
theorem search_student_retention_witness :
    (search emptyResultEnv commentOnlyRetainedState).1.studentsListRowTables
      = commentOnlyRetainedState.studentsListRowTables :=
  (search_student_retention emptyResultEnv commentOnlyRetainedState
      { searchCommentTables := some [], searchStudentTables := some [] }
      { searchCommentTables := none, searchStudentTables := none }
      (by decide) (by decide) rfl rfl).1 (Or.inl rfl)

/-- C10: on a successful search the displayed comment table is always
overwritten with the comment branch's output; in particular a successful
student-only search overwrites it with the placeholder's absent comment
field, so previously displayed comment results disappear. -/
theorem search_comment_overwrite (env : SearchServiceEnv) (st : PageState)
    (r0 r1 : TransformedInstructorSearchResult)
    (hg : (st.searchParams.isSearchForComments || st.searchParams.isSearchForStudents) = true)
    (hk : st.searchParams.searchKey ≠ "")
    (hc : commentBranch env st.searchParams = .ok r0)
    (hs : studentBranch env st.searchParams = .ok r1) :
    (search env st).1.commentTables = r0.searchCommentTables
      ∧ (st.searchParams.isSearchForComments = false →
          (search env st).1.commentTables = none) := by
  rw [search_ok env st r0 r1 hg hk hc hs]
  constructor
  · rfl
  · intro hfalse
    have hplc := commentBranch_disabled env st.searchParams hfalse
    have hr0 : r0 = { searchCommentTables := none, searchStudentTables := none } := by
      exact Except.ok.inj (hc.symm.trans hplc)
    subst hr0
    rfl

/-- Witness for C10: a student-only search over a state with a previously
displayed comment table replaces it with the absent comment field. -/
theorem search_comment_overwrite_witness :
    (search emptyResultEnv studentOnlyState).1.commentTables
        = (({ searchCommentTables := none, searchStudentTables := none }
            : TransformedInstructorSearchResult)).searchCommentTables
      ∧ (studentOnlyState.searchParams.isSearchForComments = false →
          (search emptyResultEnv studentOnlyState).1.commentTables = none) :=
  search_comment_overwrite emptyResultEnv studentOnlyState
    { searchCommentTables := none, searchStudentTables := none }
    { searchCommentTables := some [], searchStudentTables := some [] }
    (by decide) (by decide) rfl rfl

/-- C4 counterexample: a successful comment-only search returning zero
comments over a state whose previously displayed (and retained) student
table is non-empty still emits the "No results found." warning, although the
possibly-retained student result set is non-empty — so the warning is not
equivalent to emptiness of the retained set. -/
theorem search_warning_despite_retained_rows :
    (search emptyResultEnv commentOnlyRetainedState).2
        = [Toast.warning "No results found."]
      ∧ (search emptyResultEnv commentOnlyRetainedState).1.studentsListRowTables
        = [retainedTable] := by
  exact ⟨rfl, rfl⟩

/-- C4 (amended): on a successful search, the single "No results found."
warning is emitted if and only if both the new comment result set and the
new student result set of this search are empty (the retained previously
displayed table is not consulted); otherwise no toast is emitted. -/
theorem search_warning_iff (env : SearchServiceEnv) (st : PageState)
    (r0 r1 : TransformedInstructorSearchResult)
    (hg : (st.searchParams.isSearchForComments || st.searchParams.isSearchForStudents) = true)
    (hk : st.searchParams.searchKey ≠ "")
    (hc : commentBranch env st.searchParams = .ok r0)
    (hs : studentBranch env st.searchParams = .ok r1) :
    ((search env st).2 = [Toast.warning "No results found."]
        ↔ (r0.searchCommentTables.getD [] = [] ∧ r1.searchStudentTables.getD [] = []))
      ∧ ((search env st).2 = [Toast.warning "No results found."]
          ∨ (search env st).2 = []) := by
  rw [search_ok env st r0 r1 hg hk hc hs]
  have ht1 := truthyLen_false_iff r1.searchStudentTables
  have ht0 := truthyLen_false_iff r0.searchCommentTables
  constructor
  · rw [← ht0, ← ht1]
    by_cases ha : truthyLen r1.searchStudentTables <;>
      by_cases hb : truthyLen r0.searchCommentTables <;>
        simp [ha, hb]
  · by_cases ha : truthyLen r1.searchStudentTables <;>
      by_cases hb : truthyLen r0.searchCommentTables <;>
        simp [ha, hb]

/-- Witness for the amended C4 at a search returning zero comments and zero
students with both toggles enabled. -/
theorem search_warning_iff_witness :
    ((search emptyResultEnv exampleState).2 = [Toast.warning "No results found."]
        ↔ ((({ searchCommentTables := some [], searchStudentTables := some [] }
              : TransformedInstructorSearchResult)).searchCommentTables.getD [] = []
            ∧ (({ searchCommentTables := some [], searchStudentTables := some [] }
              : TransformedInstructorSearchResult)).searchStudentTables.getD [] = []))
      ∧ ((search emptyResultEnv exampleState).2 = [Toast.warning "No results found."]
          ∨ (search emptyResultEnv exampleState).2 = []) :=
  search_warning_iff emptyResultEnv exampleState
    { searchCommentTables := some [], searchStudentTables := some [] }
    { searchCommentTables := some [], searchStudentTables := some [] }
    (by decide) (by decide) rfl rfl

/-- One of the remote calls of this search failed with payload `e`: the
comment search, the student search, or a privilege lookup needed for one of
the resulting rows. -/
def FailedCall (env : SearchServiceEnv) (p : SearchParams)
    (e : ErrorMessageOutput) : Prop :=
  (p.isSearchForComments = true ∧ env.searchComment p.searchKey = .error e)
    ∨ (p.isSearchForStudents = true ∧
        (env.searchInstructor p.searchKey = .error e
          ∨ ∃ isr, env.searchInstructor p.searchKey = .ok isr ∧
              ∃ k ∈ rowLookupKeys (getCoursesWithStudents isr.students),
                env.searchInstructorPrivilege k.1 k.2 = .error e))

/-- C5: whenever any remote call of a (non-no-op) search fails, the whole
operation fails: exactly one error toast is emitted carrying the message of
a failed call, no result table is updated (the state changes only by the
busy flag), and the busy flag is cleared. -/
theorem search_failure_propagation (env : SearchServiceEnv) (st : PageState)
    (hg : (st.searchParams.isSearchForComments || st.searchParams.isSearchForStudents) = true)
    (hk : st.searchParams.searchKey ≠ "")
    (hfail : ∃ e, FailedCall env st.searchParams e) :
    ∃ e, FailedCall env st.searchParams e ∧
      search env st = ({ st with isSearching := false }, [Toast.error e.error.message]) := by
  cases hcb : commentBranch env st.searchParams with
  | error e0 =>
    refine ⟨e0, ?_, search_error_comment env st e0 hg hk hcb⟩
    exact Or.inl ((commentBranch_error_iff env st.searchParams e0).mp hcb)
  | ok r0 =>
    cases hsb : studentBranch env st.searchParams with
    | error e1 =>
      refine ⟨e1, ?_, search_error_student env st r0 e1 hg hk hcb hsb⟩
      have hchar := (studentBranch_error_iff env st.searchParams e1).mp hsb
      rcases hchar with ⟨htog, h | ⟨isr, hok, hpe⟩⟩
      · exact Or.inr ⟨htog, Or.inl h⟩
      · rcases getPrivileges_error_mem env _ e1 hpe with ⟨k, hk', he⟩
        exact Or.inr ⟨htog, Or.inr ⟨isr, hok, k, hk', he⟩⟩
    | ok r1 =>
      exfalso
      rcases hfail with ⟨e, hf⟩
      rcases hf with ⟨htog, herr⟩ | ⟨htog, herr⟩
      · have : commentBranch env st.searchParams = .error e :=
          (commentBranch_error_iff env st.searchParams e).mpr ⟨htog, herr⟩
        rw [hcb] at this
        simp at this
      · rcases herr with h | ⟨isr, hok, k, hk', he⟩
        · have : studentBranch env st.searchParams = .error e :=
            (studentBranch_error_iff env st.searchParams e).mpr ⟨htog, Or.inl h⟩
          rw [hsb] at this
          simp at this
        · rcases getPrivileges_error_of_mem env _ k e hk' he with ⟨e', he'⟩
          have : studentBranch env st.searchParams = .error e' :=
            (studentBranch_error_iff env st.searchParams e').mpr
              ⟨htog, Or.inr ⟨isr, hok, he'⟩⟩
          rw [hsb] at this
          simp at this

/-- Witness for C5 at a concrete environment whose comment search fails. -/
theorem search_failure_propagation_witness :
    ∃ e, FailedCall exampleErrorEnv commentOnlyRetainedState.searchParams e ∧
      search exampleErrorEnv commentOnlyRetainedState =
        ({ commentOnlyRetainedState with isSearching := false },
          [Toast.error e.error.message]) :=
  search_failure_propagation exampleErrorEnv commentOnlyRetainedState
    (by decide) (by decide)
    ⟨{ error := { message := "boom" } }, Or.inl ⟨rfl, rfl⟩⟩
